import Mathlib

/-!
Verification development for the audio-flamingo model-definition repository
(file src/inference/src/helpers.py).  The repository's original logic is the
media-location masking rule inside MaskedCrossAttention.forward and the gated
residual wiring of GatedCrossAttentionBlock.forward; everything else is
delegated to the tensor library.

Embedding conventions:
  scalars are rationals; tensors are nested lists;
  fallible Python code (assert statements, tensor indexing, attribute access
  on None) is modelled with Except PyErr;
  library primitives whose exact real-valued behaviour is irrelevant to the
  claims (exp, sqrt, gelu, tanh, the constant dim_head ** -0.5) are passed in
  as parameters, mirroring the spec's statement that all numeric primitives
  are delegated to an external library.
-/

set_option maxHeartbeats 1000000

/-- Python exception kinds that the code under verification can raise. -/
inductive PyErr where
  | assertionError : String → PyErr
  | attributeError : String → PyErr
  | indexError : String → PyErr
  | nameError : String → PyErr
  | zeroDivisionError : PyErr
  | runtimeError : String → PyErr
  deriving DecidableEq, Repr

deriving instance DecidableEq for Except

/-- True exactly on AssertionError values. -/
def PyErr.isAssertionError : PyErr → Bool
  | .assertionError _ => true
  | _ => false

abbrev Vec := List ℚ
abbrev Mat := List (List ℚ)
abbrev Tens3 := List (List (List ℚ))
abbrev Tens4 := List (List (List (List ℚ)))
abbrev BMask2 := List (List Bool)
abbrev BMask3 := List (List (List Bool))

/-- Indexed map with an explicit starting index (used to model writes that
depend on the tensor coordinate, e.g. slice assignment). -/
def mapIdxF {α β : Type} (f : Nat → α → β) : Nat → List α → List β
  | _, [] => []
  | i, a :: as => f i a :: mapIdxF f (i + 1) as

/-- Sequential effectful map over a list, stopping at the first error; this is
the shape of a Python for-loop whose body may raise. -/
def mapExcept {α β ε : Type} (f : α → Except ε β) : List α → Except ε (List β)
  | [] => .ok []
  | a :: as =>
    match f a with
    | .error e => .error e
    | .ok b =>
      match mapExcept f as with
      | .error e => .error e
      | .ok bs => .ok (b :: bs)

/-- Lookup of a boolean mask entry, defaulting to false outside the mask. -/
def maskAt (m : List (List Bool)) (t s : Nat) : Bool :=
  (((m[t]?).getD [])[s]?).getD false

/-- A T-by-L rectangular boolean grid. -/
def Shaped (T L : Nat) (m : List (List Bool)) : Prop :=
  m.length = T ∧ ∀ t < T, ((m[t]?).getD []).length = L

/-- Source: media_locations[batch_idx].nonzero() — the ascending list of text
positions whose marker entry is set. -/
def nonzeroLocs (row : List Bool) : List Nat :=
  (List.range row.length).filter (fun i => row.getD i false)

/-- Source, lines 286-303: the bounds (text_start, text_end,
look_at_window_start, look_at_window_end) computed for loop iteration i;
the loop variable i ranges over -1 .. len(locs)-1 and is modelled here by
k = i + 1 ranging over 0 .. len(locs).  Note max(i, 0) = k - 1 in truncated
natural subtraction.  Returns none exactly when the Python code would raise
IndexError (reading locs[0] from an empty location list). -/
def iterBounds (T W : Nat) (flag : Bool) (locs : List Nat) (k : Nat) :
    Option (Nat × Nat × Nat × Nat) :=
  if k = 0 then
    if locs.length = 1 then
      some (0, T, if flag then (k - 1) * W else 0, (k - 1 + 1) * W)
    else if locs.length = 0 then none
    else some (0, locs.getD 0 0, if flag then (k - 1) * W else 0, (k - 1 + 1) * W)
  else if k = locs.length then
    some (locs.getD (k - 1) 0, T, if flag then (k - 1) * W else 0, (k - 1 + 1) * W)
  else if k < locs.length then
    some (locs.getD (k - 1) 0, locs.getD k 0, if flag then (k - 1) * W else 0,
      (k - 1 + 1) * W)
  else none

/-- Source, line 305: few_shot_mask[batch_idx, text_start:text_end,
look_at_window_start:look_at_window_end] = True (slice assignment clamps to
the existing extent, as in the library). -/
def sliceSet (m : List (List Bool)) (ts te ws we : Nat) : List (List Bool) :=
  mapIdxF (fun t row =>
    if ts ≤ t ∧ t < te then
      mapIdxF (fun s b => if ws ≤ s ∧ s < we then true else b) 0 row
    else row) 0 m

/-- Source, lines 286-305: the per-batch-item loop over marker indices,
accumulating slice assignments into the mask. -/
def maskLoop (T W : Nat) (flag : Bool) (locs : List Nat) :
    List (List Bool) → List Nat → Option (List (List Bool))
  | m, [] => some m
  | m, k :: ks =>
    match iterBounds T W flag locs k with
    | none => none
    | some (ts, te, ws, we) => maskLoop T W flag locs (sliceSet m ts te ws we) ks

/-- Source, lines 282-305: the mask built for one batch item, starting from a
zero (all-false) T_txt-by-L grid. -/
def fewShotMaskItem (T L W : Nat) (flag : Bool) (locs : List Nat) :
    Option (List (List Bool)) :=
  maskLoop T W flag locs (List.replicate T (List.replicate L false))
    (List.range (locs.length + 1))

/-- Source, lines 280-305: few_shot_mask = torch.zeros(B, T_txt, L).bool()
followed by the loop over batch items; indexing media_locations out of range
or an empty marker list raises IndexError. -/
def few_shot_mask (T L W : Nat) (flag : Bool) (lsAll : List (List Bool))
    (B : Nat) : Except PyErr (List (List (List Bool))) :=
  mapExcept (fun b =>
    match lsAll[b]? with
    | none => .error (.indexError "media_locations index out of range")
    | some row =>
      match fewShotMaskItem T L W flag (nonzeroLocs row) with
      | none => .error (.indexError "index 0 is out of bounds for dimension 0 with size 0")
      | some mb => .ok mb) (List.range B)

/-- Iteration k of the mask loop writes cell (t, s). -/
def covers (T W : Nat) (flag : Bool) (locs : List Nat) (k t s : Nat) : Prop :=
  ∃ ts te ws we, iterBounds T W flag locs k = some (ts, te, ws, we) ∧
    ts ≤ t ∧ t < te ∧ ws ≤ s ∧ s < we

/-- Number of marker positions at or before text position t. -/
def markersUpTo (locs : List Nat) (t : Nat) : Nat :=
  (locs.filter (fun l => decide (l ≤ t))).length

/-- The index of the last marker position at or before t (0 when t precedes
the first marker), as described by the specification. -/
def lastMarkerIdx (row : List Bool) (t : Nat) : Nat :=
  markersUpTo (nonzeroLocs row) t - 1

/-- Library primitives (exp, sqrt, gelu, tanh) supplied by the tensor
library; the claims do not depend on their values except tanh 0 = 0, which is
taken as a hypothesis where needed. -/
structure LibPrims where
  sqrtQ : ℚ → ℚ
  expQ : ℚ → ℚ
  geluQ : ℚ → ℚ
  tanhQ : ℚ → ℚ

/-- Parameters of MaskedCrossAttention (source lines 216-239).  scale is set
to dim_head ** -0.5 in the source; its value is irrelevant to every claim and
it is carried as an opaque rational parameter. -/
structure MaskedCrossAttention where
  dim : Nat
  dim_audio : Nat
  max_window_per_audio : Nat
  scale : ℚ
  heads : Nat
  dim_head : Nat
  norm_w : Vec
  norm_b : Vec
  to_q : Mat
  to_kv : Mat
  to_out : Mat
  only_attend_immediate_media : Bool

def dotQ (u v : Vec) : ℚ := (List.zipWith (fun a b => a * b) u v).sum

/-- nn.Linear with bias=False: each output coordinate is a row of the weight
matrix dotted with the input.  nn.Linear's RuntimeError on an input whose
last dimension differs from in_features is modelled by an explicit check at
the call sites in mcaForward (chkNorm, chkToKv). -/
def linNB (w : Mat) (v : Vec) : Vec := w.map (fun wr => dotQ wr v)

/-- nn.LayerNorm over the last dimension (eps = 1e-5).  The RuntimeError
nn.LayerNorm raises when the last dimension differs from normalized_shape is
modelled by chkNorm at the call site in mcaForward. -/
def layerNorm (sq : ℚ → ℚ) (w b : Vec) (v : Vec) : Vec :=
  let n : ℚ := (v.length : ℚ)
  let mu := v.sum / n
  let varr := ((v.map (fun a => (a - mu) ^ 2)).sum) / n
  mapIdxF (fun i a => (a - mu) / sq (varr + 1 / 100000) * w.getD i 1 + b.getD i 0)
    0 v

/-- einops rearrange b n (h d) -> b h n d, per batch item. -/
def toHeads (h dh : Nat) (m : Mat) : List Mat :=
  (List.range h).map (fun hi => m.map (fun r => (r.drop (hi * dh)).take dh))

/-- einsum i d, j d -> i j. -/
def matmulT (A B2 : Mat) : Mat := A.map (fun ar => B2.map (fun br => dotQ ar br))

def addVec (u v : Vec) : Vec := List.zipWith (fun a b => a + b) u v

/-- einsum i j, j d -> i d (attention weights applied to values). -/
def matmulAV (A V : Mat) (dh : Nat) : Mat :=
  A.map (fun ar =>
    (List.zipWith (fun c vr => vr.map (fun z => c * z)) ar V).foldl addVec
      (List.replicate dh 0))

/-- einops rearrange b h n d -> b n (h d), per batch item. -/
def concatHeads (outs : List Mat) : Mat :=
  (List.range ((outs.headD []).length)).map
    (fun t => (outs.map (fun mm => (mm[t]?).getD [])).flatten)

/-- torch.amax over the last dimension. -/
def amaxRow (r : Vec) : ℚ := r.foldl max (r.headD 0)

/-- Source line 309: sim - sim.amax(dim=-1, keepdim=True). -/
def shiftMaxRow (r : Vec) : Vec := r.map (fun a => a - amaxRow r)

/-- softmax over the last dimension (library primitive exp supplied). -/
def softmaxRow (expQ : ℚ → ℚ) (r : Vec) : Vec :=
  let e := r.map expQ
  e.map (fun a => a / e.sum)

/-- torch.finfo(float32).max, the largest finite value of the score dtype;
masked positions are filled with its negation. -/
def finfoMax : ℚ := (2 - (1 / 2) ^ 23) * 2 ^ 127

/-- tensor.shape[1] of a (at least) 2-dimensional tensor. -/
def shape1 {α : Type} (x : List (List α)) : Nat := (x.headD []).length

/-- tensor.shape[2] of a (at least) 3-dimensional tensor. -/
def shape2 {α : Type} (x : List (List (List α))) : Nat :=
  ((x.headD []).headD []).length

/-- Source line 274: sim.masked_fill(~media_mask, -finfo.max), where
media_mask has been rearranged to b 1 1 (i n) and so broadcasts over heads
and text positions. -/
def fillByMediaMask (mmF : List (List Bool)) (sim : Tens4) : Tens4 :=
  mapIdxF (fun b hb => hb.map (fun mat => mat.map (fun row =>
    mapIdxF (fun s v =>
      if (((mmF[b]?).getD [])[s]?).getD false then v else -finfoMax) 0 row)))
    0 sim

/-- Source line 307: sim.masked_fill(~few_shot_mask.unsqueeze(1), -finfo.max);
the mask broadcasts over the head dimension. -/
def fillByFewShot (fsm : BMask3) (sim : Tens4) : Tens4 :=
  mapIdxF (fun b hb => hb.map (fun mat =>
    mapIdxF (fun t row =>
      mapIdxF (fun s v =>
        if maskAt ((fsm[b]?).getD []) t s then v else -finfoMax) 0 row)
      0 mat)) 0 sim

/-- The boolean location mask as built inside forward (lines 279-305):
T_txt = x.shape[1], B and L = media.shape[:2]. -/
def maskBuilt (m : MaskedCrossAttention) (x : Tens3) (media : Tens4)
    (lsAll : BMask2) : Except PyErr BMask3 :=
  few_shot_mask (shape1 x) (shape1 media) m.max_window_per_audio
    m.only_attend_immediate_media lsAll media.length

def exBind {ε α β : Type} (c : Except ε α) (f : α → Except ε β) : Except ε β :=
  match c with
  | .error e => .error e
  | .ok a => f a

/-- Source lines 249-252: the assert comparing media_locations.shape[1] with
x.shape[1]; evaluating media_locations.shape when media_locations is None
raises AttributeError. -/
def chkLocShape (media_locations : Option BMask2) (x : Tens3)
    (use_cached_media : Bool) : Except PyErr Unit :=
  if use_cached_media then .ok ()
  else
    match media_locations with
    | none => .error (.attributeError "NoneType object has no attribute shape")
    | some ml =>
      if shape1 ml = shape1 x then .ok ()
      else .error (.assertionError "media_location.shape does not match x.shape")

/-- Source line 256: assert media.shape[2] == 1. -/
def chkExtraDim (media : Tens4) : Except PyErr Unit :=
  if shape2 media = 1 then .ok ()
  else .error (.assertionError "media.shape 2 is the extra dim")

/-- Source line 257: assert L % self.max_window_per_audio == 0; in Python the
modulo itself raises ZeroDivisionError when the window size is 0. -/
def chkDivisible (m : MaskedCrossAttention) (media : Tens4) :
    Except PyErr Unit :=
  if m.max_window_per_audio = 0 then .error .zeroDivisionError
  else if shape1 media % m.max_window_per_audio = 0 then .ok ()
  else .error (.assertionError "L should be 4 or 8 times max_window_per_audio")

/-- Source line 276: assert self.only_attend_immediate_media is False. -/
def chkFlag (m : MaskedCrossAttention) : Except PyErr Unit :=
  if m.only_attend_immediate_media then
    .error (.assertionError "self.only_attend_immediate_media is False")
  else .ok ()

/-- Source line 260: x = self.norm(x); nn.LayerNorm(dim) raises RuntimeError
when the last dimension of x differs from dim. -/
def chkNorm (m : MaskedCrossAttention) (x : Tens3) : Except PyErr Unit :=
  if x.all (fun xb => xb.all (fun r => r.length == m.dim)) then .ok ()
  else .error (.runtimeError "LayerNorm normalized_shape mismatch")

/-- Source line 265: self.to_kv(media); nn.Linear(dim_audio, _) raises
RuntimeError when the last dimension of media differs from dim_audio. -/
def chkToKv (m : MaskedCrossAttention) (media : Tens4) : Except PyErr Unit :=
  if media.all (fun mb => mb.all (fun nb =>
      nb.all (fun r => r.length == m.dim_audio))) then .ok ()
  else .error (.runtimeError "mat1 and mat2 shapes cannot be multiplied")

/-- Source line 270: einsum broadcasts the leading (batch) dimensions of q
and k; it raises RuntimeError when the two batch sizes differ and neither is
1. -/
def chkEinsumBatch (x : Tens3) (media : Tens4) : Except PyErr Unit :=
  if x.length == media.length || x.length == 1 || media.length == 1 then
    .ok ()
  else .error (.runtimeError "einsum batch dimensions do not broadcast")

/-- Source lines 273-274: masked_fill requires the rearranged media_mask
(shape b 1 1 (i n)) to be expandable to sim's shape (broadcast batch of q
and k in dimension 0, L * N in the last dimension); each mask dimension must
equal the target or be 1, else RuntimeError. -/
def chkMaskFill (x : Tens3) (media : Tens4) (media_mask : BMask3) :
    Except PyErr Unit :=
  if (media_mask.length == max x.length media.length ||
      media_mask.length == 1) &&
     (shape1 (media_mask.map List.flatten) == shape1 media * shape2 media ||
      shape1 (media_mask.map List.flatten) == 1) then .ok ()
  else .error (.runtimeError "masked_fill mask is not broadcastable")

/-- Source line 309: sim.amax(dim=-1) raises RuntimeError when the reduced
dimension (of size L * N) is empty. -/
def chkAmax (media : Tens4) : Except PyErr Unit :=
  if shape1 media * shape2 media == 0 then
    .error (.runtimeError "amax over an empty dimension")
  else .ok ()

/-- MaskedCrossAttention.forward (source lines 241-321), in source order:
the shape assertion on media_locations (AttributeError when it is None and
use_cached_media is false), the extra-dim and divisibility assertions
(ZeroDivisionError when the window size is 0, as L % 0 raises in Python),
layer norm and projections (whose library RuntimeErrors on mismatched
feature dimensions are modelled by chkNorm and chkToKv at the call sites),
head split, similarity scores (chkEinsumBatch for the einsum batch
broadcast), padding-mask fill (chkMaskFill for mask broadcastability), the
unconditional assert that only_attend_immediate_media is False, the
media-location mask fill, the max-shift (chkAmax for the empty-dimension
RuntimeError) and softmax, the (dead, because of the preceding assert)
branch that would reference the undefined name text_time, and the output
projection. -/
def mcaForward (P : LibPrims) (m : MaskedCrossAttention) (x : Tens3)
    (media : Tens4) (media_mask : BMask3) (media_locations : Option BMask2)
    (use_cached_media : Bool) : Except PyErr Tens3 :=
  exBind (chkLocShape media_locations x use_cached_media) (fun _ =>
  exBind (chkExtraDim media) (fun _ =>
  exBind (chkDivisible m media) (fun _ =>
  exBind (chkNorm m x) (fun _ =>
  let xs := x.map (fun xb => xb.map (layerNorm P.sqrtQ m.norm_w m.norm_b))
  let q := xs.map (fun xb => xb.map (linNB m.to_q))
  let mediaF := media.map List.flatten
  exBind (chkToKv m media) (fun _ =>
  let kv := mediaF.map (fun mb => mb.map (linNB m.to_kv))
  let ks := kv.map (fun mb => mb.map (fun r => r.take (r.length / 2)))
  let vs := kv.map (fun mb => mb.map (fun r => r.drop (r.length / 2)))
  let qh := q.map (toHeads m.heads m.dim_head)
  let kh := ks.map (toHeads m.heads m.dim_head)
  let vh := vs.map (toHeads m.heads m.dim_head)
  let qsc := qh.map (fun hbs => hbs.map (fun mat =>
    mat.map (fun r => r.map (fun a => a * m.scale))))
  exBind (chkEinsumBatch x media) (fun _ =>
  let sim := List.zipWith (fun qb kb => List.zipWith matmulT qb kb) qsc kh
  let mmF := media_mask.map List.flatten
  exBind (chkMaskFill x media media_mask) (fun _ =>
  let sim1 := fillByMediaMask mmF sim
  exBind (chkFlag m) (fun _ =>
  exBind (
    match media_locations with
    | some lsAll =>
      Except.map (fun fsm => fillByFewShot fsm sim1) (maskBuilt m x media lsAll)
    | none => .ok sim1) (fun sim2 =>
  exBind (chkAmax media) (fun _ =>
  let sim3 := sim2.map (fun hb => hb.map (fun mat => mat.map shiftMaxRow))
  let attnW := sim3.map (fun hb => hb.map (fun mat => mat.map (softmaxRow P.expQ)))
  exBind (
    if media_locations.isSome && m.only_attend_immediate_media then
      .error (.nameError "name text_time is not defined")
    else .ok ()) (fun _ =>
  let outH := List.zipWith
    (fun ab vb => List.zipWith (fun am vm => matmulAV am vm m.dim_head) ab vb)
    attnW vh
  let outC := outH.map concatHeads
  .ok (outC.map (fun mb => mb.map (linNB m.to_out))))))))))))))

/-- Parameters of GatedCrossAttentionBlock (source lines 324-348): the inner
attention, the two scalar gates initialised to tensor([0.0]), and the
FeedForward sublayer LayerNorm / Linear / GELU / Linear. -/
structure GatedCrossAttentionBlock where
  attn : MaskedCrossAttention
  attn_gate : ℚ
  ff_norm_w : Vec
  ff_norm_b : Vec
  ff_w1 : Mat
  ff_w2 : Mat
  ff_gate : ℚ

/-- FeedForward (source lines 27-34) applied to one feature vector. -/
def ffVec (P : LibPrims) (blk : GatedCrossAttentionBlock) (v : Vec) : Vec :=
  linNB blk.ff_w2
    ((linNB blk.ff_w1 (layerNorm P.sqrtQ blk.ff_norm_w blk.ff_norm_b v)).map
      P.geluQ)

def feedForwardT (P : LibPrims) (blk : GatedCrossAttentionBlock) (y : Tens3) :
    Tens3 :=
  y.map (fun mb => mb.map (ffVec P blk))

/-- Elementwise product with a broadcast scalar (tensor * gate.tanh()). -/
def scalarMulT (c : ℚ) (t : Tens3) : Tens3 :=
  t.map (fun mb => mb.map (fun r => r.map (fun a => a * c)))

def addT (a b : Tens3) : Tens3 :=
  List.zipWith (fun am bm => List.zipWith addVec am bm) a b

/-- GatedCrossAttentionBlock.forward (source lines 350-371):
x = attn(x, media, ...) * attn_gate.tanh() + x, then
x = ff(x) * ff_gate.tanh() + x. -/
def gxbForward (P : LibPrims) (blk : GatedCrossAttentionBlock) (x : Tens3)
    (media : Tens4) (media_mask : BMask3) (media_locations : Option BMask2)
    (use_cached_media : Bool) : Except PyErr Tens3 :=
  exBind
    (mcaForward P blk.attn x media media_mask media_locations use_cached_media)
    (fun a =>
      let x1 := addT (scalarMulT (P.tanhQ blk.attn_gate) a) x
      let x2 := addT (scalarMulT (P.tanhQ blk.ff_gate) (feedForwardT P blk x1)) x1
      .ok x2)

/-- Segment membership, straight from the specification text: segment i
starts at the i-th marker position and ends just before the next marker (at
the sequence end for the last segment); the segment written none is the one
before the first marker, starting at position 0. -/
def SegContains (locs : List Nat) (T : Nat) : Option Nat → Nat → Prop
  | none, t => t < locs.getD 0 0
  | some i, t => i < locs.length ∧ locs.getD i 0 ≤ t ∧
      (if i + 1 < locs.length then t < locs.getD (i + 1) 0 else t < T)

instance (locs : List Nat) (T : Nat) (so : Option Nat) (t : Nat) :
    Decidable (SegContains locs T so t) := by
  cases so with
  | none => exact inferInstanceAs (Decidable (t < locs.getD 0 0))
  | some i => exact inferInstanceAs (Decidable (_ ∧ _ ∧ _))

/-- Two batched rank-3 tensors have identical shapes. -/
def SameShape3 (a b : Tens3) : Prop :=
  a.length = b.length ∧
  ∀ i < a.length, ((a[i]?).getD []).length = ((b[i]?).getD []).length ∧
    ∀ j < ((a[i]?).getD []).length,
      ((((a[i]?).getD [])[j]?).getD []).length =
        ((((b[i]?).getD [])[j]?).getD []).length

instance (a b : Tens3) : Decidable (SameShape3 a b) := by
  unfold SameShape3
  infer_instance

/-- Entry of a rank-4 score tensor (batch, head, text, slot), defaulting to 0
outside the tensor. -/
def getS4 (sim : Tens4) (b h t s : Nat) : ℚ :=
  (((sim.getD b []).getD h []).getD t []).getD s 0

/-- Concrete library primitives for witnesses (any functions are admissible;
id satisfies tanh 0 = 0). -/
def primsId : LibPrims := ⟨id, id, id, id⟩

/-- A concrete module with only_attend_immediate_media = False, window size 1,
one head, and 1-dimensional features. -/
def mcaF : MaskedCrossAttention :=
  ⟨1, 1, 1, 1, 1, 1, [1], [0], [[0]], [[0], [0]], [[0]], false⟩

/-- A second concrete module with the same window size and flag as mcaF but
different parameters. -/
def mcaF2 : MaskedCrossAttention :=
  ⟨1, 1, 1, 3, 2, 1, [2], [1], [[1]], [[2], [3]], [[4]], false⟩

/-- A concrete module with only_attend_immediate_media = True (the
constructor's default). -/
def mcaT : MaskedCrossAttention :=
  ⟨1, 1, 1, 1, 1, 1, [1], [0], [[0]], [[0], [0]], [[0]], true⟩

/-- A concrete gated block with both gates at their initial value 0. -/
def gxbC : GatedCrossAttentionBlock := ⟨mcaF, 0, [1], [0], [[0]], [[0]], 0⟩

theorem length_mapIdxF {α β : Type} (f : Nat → α → β) (i : Nat) (l : List α) :
    (mapIdxF f i l).length = l.length := by
  induction l generalizing i with
  | nil => rfl
  | cons a as ih => simp [mapIdxF, ih]

theorem getElem?_mapIdxF {α β : Type} (f : Nat → α → β) (i j : Nat) (l : List α) :
    (mapIdxF f i l)[j]? = (l[j]?).map (f (i + j)) := by
  induction l generalizing i j with
  | nil => simp [mapIdxF]
  | cons a as ih =>
    cases j with
    | zero => simp [mapIdxF]
    | succ j =>
      simp only [mapIdxF, List.getElem?_cons_succ, ih (i + 1) j]
      have : i + 1 + j = i + (j + 1) := by omega
      rw [this]

theorem mapExcept_ok_of_forall {α β ε : Type} (f : α → Except ε β) (l : List α)
    (h : ∀ a ∈ l, ∃ b, f a = .ok b) : ∃ bs, mapExcept f l = .ok bs := by
  induction l with
  | nil => exact ⟨[], rfl⟩
  | cons a as ih =>
    obtain ⟨b, hb⟩ := h a (List.mem_cons_self a as)
    obtain ⟨bs, hbs⟩ := ih (fun x hx => h x (List.mem_cons_of_mem a hx))
    exact ⟨b :: bs, by simp [mapExcept, hb, hbs]⟩

theorem mapExcept_error_of_mem {α β ε : Type} (f : α → Except ε β) (l : List α)
    (a : α) (ha : a ∈ l) (e : ε) (he : f a = .error e) :
    ∃ e2, mapExcept f l = .error e2 := by
  induction l with
  | nil => cases ha
  | cons hd tl ih =>
    rcases List.mem_cons.mp ha with rfl | hmem
    · exact ⟨e, by simp [mapExcept, he]⟩
    · cases hhd : f hd with
      | error e3 => exact ⟨e3, by simp [mapExcept, hhd]⟩
      | ok b =>
        obtain ⟨e2, h2⟩ := ih hmem
        exact ⟨e2, by simp [mapExcept, hhd, h2]⟩

theorem mapExcept_ok_nth {α β ε : Type} (f : α → Except ε β) (l : List α)
    (bs : List β) (h : mapExcept f l = .ok bs) :
    ∀ (i : Nat) (a : α), l[i]? = some a → ∃ b, f a = .ok b ∧ bs[i]? = some b := by
  induction l generalizing bs with
  | nil => intro i a ha; simp at ha
  | cons hd tl ih =>
    intro i a ha
    cases hhd : f hd with
    | error e => simp [mapExcept, hhd] at h
    | ok b =>
      cases htl : mapExcept f tl with
      | error e => simp [mapExcept, hhd, htl] at h
      | ok cs =>
        simp [mapExcept, hhd, htl] at h
        subst h
        cases i with
        | zero =>
          simp at ha
          subst ha
          exact ⟨b, hhd, by simp⟩
        | succ i =>
          simp at ha
          obtain ⟨c, hc, hcs⟩ := ih cs htl i a ha
          exact ⟨c, hc, by simpa using hcs⟩

theorem maskAt_zeros (T L t s : Nat) :
    maskAt (List.replicate T (List.replicate L false)) t s = false := by
  simp only [maskAt, List.getElem?_replicate]
  by_cases ht : t < T <;> by_cases hs : s < L <;> simp [ht, hs]

theorem shaped_zeros (T L : Nat) :
    Shaped T L (List.replicate T (List.replicate L false)) := by
  refine ⟨by simp, fun t ht => ?_⟩
  simp [List.getElem?_replicate, ht]

theorem sliceSet_getElem? (m : List (List Bool)) (ts te ws we t : Nat) :
    (sliceSet m ts te ws we)[t]? =
      (m[t]?).map (fun row =>
        if ts ≤ t ∧ t < te then
          mapIdxF (fun s b => if ws ≤ s ∧ s < we then true else b) 0 row
        else row) := by
  simpa [sliceSet] using getElem?_mapIdxF
    (fun t row =>
      if ts ≤ t ∧ t < te then
        mapIdxF (fun s b => if ws ≤ s ∧ s < we then true else b) 0 row
      else row) 0 t m

theorem mapIdxF_set_getElem? (row : List Bool) (ws we s : Nat) :
    (mapIdxF (fun s b => if ws ≤ s ∧ s < we then true else b) 0 row)[s]? =
      (row[s]?).map (fun b => if ws ≤ s ∧ s < we then true else b) := by
  simpa using getElem?_mapIdxF (fun s b => if ws ≤ s ∧ s < we then true else b) 0 s row

theorem sliceSet_shaped {T L : Nat} {m : List (List Bool)} (hm : Shaped T L m)
    (ts te ws we : Nat) : Shaped T L (sliceSet m ts te ws we) := by
  obtain ⟨h1, h2⟩ := hm
  refine ⟨by simpa [sliceSet, length_mapIdxF] using h1, fun t ht => ?_⟩
  rw [sliceSet_getElem?]
  have htm : t < m.length := h1 ▸ ht
  rw [List.getElem?_eq_getElem htm]
  have hlen := h2 t ht
  rw [List.getElem?_eq_getElem htm] at hlen
  simp only [Option.getD_some] at hlen
  by_cases hc : ts ≤ t ∧ t < te <;> simp [hc, length_mapIdxF, hlen]

theorem maskAt_sliceSet {T L : Nat} {m : List (List Bool)} (hm : Shaped T L m)
    (ts te ws we t s : Nat) (ht : t < T) (hs : s < L) :
    (maskAt (sliceSet m ts te ws we) t s = true ↔
      ((ts ≤ t ∧ t < te) ∧ (ws ≤ s ∧ s < we)) ∨ maskAt m t s = true) := by
  obtain ⟨h1, h2⟩ := hm
  have htm : t < m.length := h1 ▸ ht
  have hrow : m[t]? = some (m.getD t []) := by
    rw [List.getElem?_eq_getElem htm, List.getD_eq_getElem _ _ htm]
  set row := m.getD t [] with hrowdef
  have hrowlen : row.length = L := by
    have := h2 t ht
    rw [hrow] at this
    simpa using this
  have hsr : s < row.length := hrowlen ▸ hs
  have hb0 : row[s]? = some (row.getD s false) := by
    rw [List.getElem?_eq_getElem hsr, List.getD_eq_getElem _ _ hsr]
  unfold maskAt
  rw [sliceSet_getElem?, hrow]
  simp only [Option.map_some', Option.getD_some]
  by_cases hT : ts ≤ t ∧ t < te
  · rw [if_pos hT, mapIdxF_set_getElem?, hb0]
    by_cases hS : ws ≤ s ∧ s < we <;> simp [hT, hS]
  · rw [if_neg hT, hb0]
    simp [hT]

theorem maskLoop_char {T L W : Nat} {flag : Bool} {locs : List Nat} {t s : Nat}
    (ht : t < T) (hs : s < L) :
    ∀ (ks : List Nat) (m res : List (List Bool)), Shaped T L m →
      maskLoop T W flag locs m ks = some res →
      (maskAt res t s = true ↔
        maskAt m t s = true ∨ ∃ k ∈ ks, covers T W flag locs k t s) := by
  intro ks
  induction ks with
  | nil =>
    intro m res hm hr
    simp only [maskLoop] at hr
    cases hr
    simp
  | cons k ks ih =>
    intro m res hm hr
    simp only [maskLoop] at hr
    cases hb : iterBounds T W flag locs k with
    | none => rw [hb] at hr; cases hr
    | some b =>
      obtain ⟨ts, te, ws, we⟩ := b
      rw [hb] at hr
      have hslice := maskAt_sliceSet hm ts te ws we t s ht hs
      have hcov : covers T W flag locs k t s ↔
          (ts ≤ t ∧ t < te) ∧ (ws ≤ s ∧ s < we) := by
        constructor
        · rintro ⟨a2, b2, c2, d2, hb2, hx1, hx2, hx3, hx4⟩
          rw [hb] at hb2
          cases hb2
          exact ⟨⟨hx1, hx2⟩, hx3, hx4⟩
        · rintro ⟨⟨hx1, hx2⟩, hx3, hx4⟩
          exact ⟨ts, te, ws, we, hb, hx1, hx2, hx3, hx4⟩
      have hrec := ih (sliceSet m ts te ws we) res (sliceSet_shaped hm ts te ws we) hr
      rw [hrec, hslice]
      simp only [List.mem_cons]
      constructor
      · rintro ((h | h) | ⟨k2, hk2, hc⟩)
        · exact Or.inr ⟨k, Or.inl rfl, hcov.mpr h⟩
        · exact Or.inl h
        · exact Or.inr ⟨k2, Or.inr hk2, hc⟩
      · rintro (h | ⟨k2, hk2 | hk2, hc⟩)
        · exact Or.inl (Or.inr h)
        · subst hk2
          exact Or.inl (Or.inl (hcov.mp hc))
        · exact Or.inr ⟨k2, hk2, hc⟩

theorem maskLoop_isSome {T W : Nat} {flag : Bool} {locs : List Nat} :
    ∀ (ks : List Nat) (m : List (List Bool)),
      (∀ k ∈ ks, (iterBounds T W flag locs k).isSome) →
      ∃ res, maskLoop T W flag locs m ks = some res := by
  intro ks
  induction ks with
  | nil => exact fun m _ => ⟨m, rfl⟩
  | cons k ks ih =>
    intro m hall
    have hk := hall k (List.mem_cons_self k ks)
    cases hb : iterBounds T W flag locs k with
    | none => rw [hb] at hk; cases hk
    | some b =>
      obtain ⟨ts, te, ws, we⟩ := b
      obtain ⟨res, hres⟩ := ih (sliceSet m ts te ws we)
        (fun k2 hk2 => hall k2 (List.mem_cons_of_mem k hk2))
      exact ⟨res, by simp [maskLoop, hb, hres]⟩

theorem iterBounds_isSome {T W : Nat} {flag : Bool} {locs : List Nat}
    (hne : locs ≠ []) {k : Nat} (hk : k ≤ locs.length) :
    (iterBounds T W flag locs k).isSome := by
  have hn : locs.length ≠ 0 := fun h => hne (List.length_eq_zero.mp h)
  unfold iterBounds
  by_cases h0 : k = 0
  · by_cases h1 : locs.length = 1 <;> simp [h0, h1, hn]
  · by_cases h2 : k = locs.length
    · simp [h0, h2, hne]
    · have h3 : k < locs.length := by omega
      simp [h0, h2, h3]

theorem fewShotMaskItem_isSome (T L W : Nat) (flag : Bool) {locs : List Nat}
    (hne : locs ≠ []) : ∃ res, fewShotMaskItem T L W flag locs = some res := by
  unfold fewShotMaskItem
  exact maskLoop_isSome _ _ (fun k hk =>
    iterBounds_isSome hne (by simpa [Nat.lt_succ_iff] using List.mem_range.mp hk))

theorem fewShotMaskItem_empty (T L W : Nat) (flag : Bool) :
    fewShotMaskItem T L W flag [] = none := rfl

theorem fewShotMaskItem_char {T L W : Nat} {locs : List Nat}
    {res : List (List Bool)} (hres : fewShotMaskItem T L W false locs = some res)
    {t s : Nat} (ht : t < T) (hs : s < L) :
    (maskAt res t s = true ↔
      ∃ k ∈ List.range (locs.length + 1), covers T W false locs k t s) := by
  have := maskLoop_char ht hs (List.range (locs.length + 1)) _ res
    (shaped_zeros T L) hres
  rw [this, maskAt_zeros]
  simp

theorem nonzeroLocs_sorted (row : List Bool) :
    List.Pairwise (· < ·) (nonzeroLocs row) :=
  List.Pairwise.sublist (List.filter_sublist _) (List.pairwise_lt_range _)

theorem getD_some_of_lt (locs : List Nat) (k : Nat) (hk : k < locs.length) :
    locs[k]? = some (locs.getD k 0) := by
  rw [List.getElem?_eq_getElem hk, List.getD_eq_getElem _ _ hk]

theorem markersUpTo_le_length (locs : List Nat) (t : Nat) :
    markersUpTo locs t ≤ locs.length :=
  List.length_filter_le _ _

theorem sorted_count_iff {locs : List Nat} (hs : List.Pairwise (· < ·) locs)
    (t : Nat) :
    ∀ (k v : Nat), locs[k]? = some v → (v ≤ t ↔ k < markersUpTo locs t) := by
  induction locs with
  | nil => intro k v hv; simp at hv
  | cons a tl ih =>
    rw [List.pairwise_cons] at hs
    obtain ⟨ha, htl⟩ := hs
    intro k v hv
    by_cases hat : a ≤ t
    · have hcnt : markersUpTo (a :: tl) t = markersUpTo tl t + 1 := by
        simp [markersUpTo, List.filter_cons, hat]
      cases k with
      | zero =>
        simp at hv
        subst hv
        simp [hcnt, hat]
      | succ k =>
        simp only [List.getElem?_cons_succ] at hv
        rw [hcnt, ih htl k v hv]
        omega
    · have hall : ∀ x ∈ tl, ¬ x ≤ t := by
        intro x hx hxle
        exact hat (Nat.le_trans (Nat.le_of_lt (ha x hx)) hxle)
      have hnil : tl.filter (fun l => decide (l ≤ t)) = [] :=
        List.filter_eq_nil_iff.mpr (by intro x hx; simpa using hall x hx)
      have hcnt : markersUpTo (a :: tl) t = 0 := by
        simp [markersUpTo, List.filter_cons, hat, hnil]
      cases k with
      | zero =>
        simp at hv
        subst hv
        simp [hcnt, hat]
      | succ k =>
        simp only [List.getElem?_cons_succ] at hv
        have hvm : v ∈ tl := List.getElem?_mem hv
        simp [hcnt, hall v hvm]

theorem iterBounds_zero_one {T W : Nat} {flag : Bool} {locs : List Nat}
    (h : locs.length = 1) :
    iterBounds T W flag locs 0 = some (0, T, 0, W) := by
  unfold iterBounds
  rw [if_pos rfl, if_pos h]
  simp

theorem iterBounds_zero_big {T W : Nat} {flag : Bool} {locs : List Nat}
    (h : 2 ≤ locs.length) :
    iterBounds T W flag locs 0 = some (0, locs.getD 0 0, 0, W) := by
  unfold iterBounds
  rw [if_pos rfl, if_neg (by omega), if_neg (by omega)]
  simp

theorem iterBounds_last {T W : Nat} {flag : Bool} {locs : List Nat} {k : Nat}
    (h1 : 1 ≤ k) (h2 : k = locs.length) :
    iterBounds T W flag locs k =
      some (locs.getD (k - 1) 0, T, if flag then (k - 1) * W else 0,
        (k - 1 + 1) * W) := by
  unfold iterBounds
  rw [if_neg (by omega), if_pos h2]

theorem iterBounds_mid {T W : Nat} {flag : Bool} {locs : List Nat} {k : Nat}
    (h1 : 1 ≤ k) (h2 : k < locs.length) :
    iterBounds T W flag locs k =
      some (locs.getD (k - 1) 0, locs.getD k 0, if flag then (k - 1) * W else 0,
        (k - 1 + 1) * W) := by
  unfold iterBounds
  rw [if_neg (by omega), if_neg (by omega), if_pos h2]

theorem iterBounds_inv {T W : Nat} {flag : Bool} {locs : List Nat}
    {k ts te ws we : Nat}
    (hb : iterBounds T W flag locs k = some (ts, te, ws, we)) :
    ws = (if flag then (k - 1) * W else 0) ∧ we = (k - 1 + 1) * W ∧
      ((k = 0 ∧ locs.length = 1 ∧ ts = 0 ∧ te = T) ∨
       (k = 0 ∧ 2 ≤ locs.length ∧ ts = 0 ∧ te = locs.getD 0 0) ∨
       (1 ≤ k ∧ k = locs.length ∧ ts = locs.getD (k - 1) 0 ∧ te = T) ∨
       (1 ≤ k ∧ k < locs.length ∧ ts = locs.getD (k - 1) 0 ∧
         te = locs.getD k 0)) := by
  unfold iterBounds at hb
  by_cases h0 : k = 0
  · rw [if_pos h0] at hb
    by_cases h1 : locs.length = 1
    · rw [if_pos h1] at hb
      simp only [Option.some.injEq, Prod.mk.injEq] at hb
      obtain ⟨h5, h6, h7, h8⟩ := hb
      subst h5; subst h6; subst h7; subst h8
      exact ⟨rfl, rfl, Or.inl ⟨h0, h1, rfl, rfl⟩⟩
    · rw [if_neg h1] at hb
      by_cases h2 : locs.length = 0
      · rw [if_pos h2] at hb; cases hb
      · rw [if_neg h2] at hb
        simp only [Option.some.injEq, Prod.mk.injEq] at hb
        obtain ⟨h5, h6, h7, h8⟩ := hb
        subst h5; subst h6; subst h7; subst h8
        exact ⟨rfl, rfl, Or.inr (Or.inl ⟨h0, by omega, rfl, rfl⟩)⟩
  · rw [if_neg h0] at hb
    by_cases h3 : k = locs.length
    · rw [if_pos h3] at hb
      simp only [Option.some.injEq, Prod.mk.injEq] at hb
      obtain ⟨h5, h6, h7, h8⟩ := hb
      subst h5; subst h6; subst h7; subst h8
      exact ⟨rfl, rfl, Or.inr (Or.inr (Or.inl ⟨by omega, h3, rfl, rfl⟩))⟩
    · rw [if_neg h3] at hb
      by_cases h4 : k < locs.length
      · rw [if_pos h4] at hb
        simp only [Option.some.injEq, Prod.mk.injEq] at hb
        obtain ⟨h5, h6, h7, h8⟩ := hb
        subst h5; subst h6; subst h7; subst h8
        exact ⟨rfl, rfl, Or.inr (Or.inr (Or.inr ⟨by omega, h4, rfl, rfl⟩))⟩
      · rw [if_neg h4] at hb; cases hb

theorem covers_char {T W : Nat} {locs : List Nat}
    (hs : List.Pairwise (· < ·) locs) (hne : locs ≠ []) {t s : Nat}
    (ht : t < T) :
    ((∃ k ∈ List.range (locs.length + 1), covers T W false locs k t s) ↔
      s < (markersUpTo locs t - 1 + 1) * W) := by
  have hn1 : 1 ≤ locs.length := by
    cases locs with
    | nil => exact absurd rfl hne
    | cons a tl => simp
  have hc_le : markersUpTo locs t ≤ locs.length := markersUpTo_le_length locs t
  constructor
  · rintro ⟨k, hkm, ts, te, ws, we, hb, ht1, ht2, hs1, hs2⟩
    obtain ⟨hws, hwe, hcase⟩ := iterBounds_inv hb
    have hmono : ∀ c2 : Nat, k ≤ c2 →
        s < (c2 - 1 + 1) * W := by
      intro c2 hkc
      have hle : (k - 1 + 1) * W ≤ (c2 - 1 + 1) * W :=
        Nat.mul_le_mul_right W (by omega)
      omega
    rcases hcase with ⟨hk0, _, _, _⟩ | ⟨hk0, _, _, _⟩ |
      ⟨hk1, hkn, hts, _⟩ | ⟨hk1, hkn, hts, _⟩
    · exact hmono _ (by omega)
    · exact hmono _ (by omega)
    · have hkc : k - 1 < markersUpTo locs t := by
        have := sorted_count_iff hs t (k - 1) (locs.getD (k - 1) 0)
          (getD_some_of_lt locs (k - 1) (by omega))
        exact this.mp (by rw [← hts]; exact ht1)
      exact hmono _ (by omega)
    · have hkc : k - 1 < markersUpTo locs t := by
        have := sorted_count_iff hs t (k - 1) (locs.getD (k - 1) 0)
          (getD_some_of_lt locs (k - 1) (by omega))
        exact this.mp (by rw [← hts]; exact ht1)
      exact hmono _ (by omega)
  · intro hsc
    by_cases hc0 : markersUpTo locs t = 0
    · have hsW : s < W := by
        rw [hc0] at hsc
        simpa using hsc
      by_cases hn : locs.length = 1
      · exact ⟨0, List.mem_range.mpr (by omega), 0, T, 0, W,
          iterBounds_zero_one hn, Nat.le_refl 0 |>.trans (Nat.zero_le t), ht,
          Nat.zero_le s, hsW⟩
      · have h2 : 2 ≤ locs.length := by omega
        have htlt : t < locs.getD 0 0 := by
          have := sorted_count_iff hs t 0 (locs.getD 0 0)
            (getD_some_of_lt locs 0 (by omega))
          by_contra hcon
          have : 0 < markersUpTo locs t := this.mp (by omega)
          omega
        exact ⟨0, List.mem_range.mpr (by omega), 0, locs.getD 0 0, 0, W,
          iterBounds_zero_big h2, Nat.zero_le t, htlt, Nat.zero_le s, hsW⟩
    · set c := markersUpTo locs t with hcdef
      have hc1 : 1 ≤ c := by omega
      have hts : locs.getD (c - 1) 0 ≤ t := by
        have := sorted_count_iff hs t (c - 1) (locs.getD (c - 1) 0)
          (getD_some_of_lt locs (c - 1) (by omega))
        exact this.mpr (by omega)
      have hsc2 : s < (c - 1 + 1) * W := hsc
      by_cases hcn : c = locs.length
      · refine ⟨c, List.mem_range.mpr (by omega),
          locs.getD (c - 1) 0, T, 0, (c - 1 + 1) * W, ?_, hts, ht,
          Nat.zero_le s, hsc2⟩
        rw [iterBounds_last hc1 hcn]
        simp
      · have hclt : c < locs.length := by omega
        have htlt : t < locs.getD c 0 := by
          have := sorted_count_iff hs t c (locs.getD c 0)
            (getD_some_of_lt locs c hclt)
          by_contra hcon
          have : c < c := this.mp (by omega)
          omega
        refine ⟨c, List.mem_range.mpr (by omega),
          locs.getD (c - 1) 0, locs.getD c 0, 0, (c - 1 + 1) * W, ?_, hts,
          htlt, Nat.zero_le s, hsc2⟩
        rw [iterBounds_mid hc1 hclt]
        simp

theorem fewShotMaskItem_spec {T L W : Nat} {row : List Bool}
    {res : List (List Bool)}
    (hres : fewShotMaskItem T L W false (nonzeroLocs row) = some res)
    {t s : Nat} (ht : t < T) (hs : s < L) :
    (maskAt res t s = true ↔
      s < (markersUpTo (nonzeroLocs row) t - 1 + 1) * W) := by
  have hne : nonzeroLocs row ≠ [] := by
    intro hnil
    rw [hnil, fewShotMaskItem_empty] at hres
    cases hres
  rw [fewShotMaskItem_char hres ht hs]
  exact covers_char (nonzeroLocs_sorted row) hne ht

theorem exBind_ok {ε α β : Type} (a : α) (f : α → Except ε β) :
    exBind (.ok a) f = f a := rfl

theorem exBind_error {ε α β : Type} (e : ε) (f : α → Except ε β) :
    exBind (.error e) f = (.error e : Except ε β) := rfl

theorem exMap_ok {ε α β : Type} (f : α → β) (a : α) :
    Except.map f (.ok a : Except ε α) = .ok (f a) := rfl

theorem exMap_error {ε α β : Type} (f : α → β) (e : ε) :
    Except.map f (.error e : Except ε α) = (.error e : Except ε β) := rfl

theorem few_shot_mask_error_of_empty_row (T L W : Nat) (flag : Bool)
    {lsAll : BMask2} {B b : Nat} {row : List Bool}
    (hb : b < B) (hrow : lsAll[b]? = some row) (hnz : nonzeroLocs row = []) :
    ∃ e, few_shot_mask T L W flag lsAll B = .error e := by
  unfold few_shot_mask
  apply mapExcept_error_of_mem _ _ b (List.mem_range.mpr hb)
    (.indexError "index 0 is out of bounds for dimension 0 with size 0")
  simp [hrow, hnz, fewShotMaskItem_empty]

theorem few_shot_mask_ok (T L W : Nat) (flag : Bool) {lsAll : BMask2} {B : Nat}
    (h : ∀ b < B, ∃ row, lsAll[b]? = some row ∧ nonzeroLocs row ≠ []) :
    ∃ M, few_shot_mask T L W flag lsAll B = .ok M := by
  unfold few_shot_mask
  apply mapExcept_ok_of_forall
  intro b hbm
  obtain ⟨row, hrow, hne⟩ := h b (List.mem_range.mp hbm)
  obtain ⟨mb, hmb⟩ := fewShotMaskItem_isSome T L W flag hne
  exact ⟨mb, by simp [hrow, hmb]⟩

theorem few_shot_mask_nth {T L W : Nat} {flag : Bool} {lsAll : BMask2}
    {B : Nat} {M : BMask3} {b : Nat} {row : List Bool}
    (hM : few_shot_mask T L W flag lsAll B = .ok M)
    (hb : b < B) (hrow : lsAll[b]? = some row) :
    ∃ mb, fewShotMaskItem T L W flag (nonzeroLocs row) = some mb ∧
      M[b]? = some mb := by
  unfold few_shot_mask at hM
  have hidx : (List.range B)[b]? = some b := by
    simp [List.getElem?_range, hb]
  obtain ⟨mb, hfb, hMb⟩ := mapExcept_ok_nth _ _ _ hM b b hidx
  simp only [hrow] at hfb
  cases hitem : fewShotMaskItem T L W flag (nonzeroLocs row) with
  | none => simp [hitem] at hfb
  | some mm =>
    simp [hitem] at hfb
    subst hfb
    exact ⟨_, rfl, hMb⟩

theorem chk_cases (c : Except PyErr Unit) : c = .ok () ∨ ∃ e, c = .error e := by
  cases c with
  | ok u => exact Or.inl (by cases u; rfl)
  | error e => exact Or.inr ⟨e, rfl⟩

theorem mca_run (P : LibPrims) (m : MaskedCrossAttention) (x : Tens3)
    (media : Tens4) (media_mask : BMask3) (media_locations : Option BMask2)
    (use_cached_media : Bool) :
    (∃ e, mcaForward P m x media media_mask media_locations use_cached_media =
      .error e) ∨
    (chkLocShape media_locations x use_cached_media = .ok () ∧
     chkExtraDim media = .ok () ∧ chkDivisible m media = .ok () ∧
     chkNorm m x = .ok () ∧ chkToKv m media = .ok () ∧
     chkEinsumBatch x media = .ok () ∧
     chkMaskFill x media media_mask = .ok ()) := by
  rcases chk_cases (chkLocShape media_locations x use_cached_media) with
    h1 | ⟨e, h1⟩
  swap
  · exact Or.inl ⟨e, by unfold mcaForward; simp only [h1, exBind_error]⟩
  rcases chk_cases (chkExtraDim media) with h2 | ⟨e, h2⟩
  swap
  · exact Or.inl ⟨e, by
      unfold mcaForward
      simp only [h1, h2, exBind_ok, exBind_error]⟩
  rcases chk_cases (chkDivisible m media) with h3 | ⟨e, h3⟩
  swap
  · exact Or.inl ⟨e, by
      unfold mcaForward
      simp only [h1, h2, h3, exBind_ok, exBind_error]⟩
  rcases chk_cases (chkNorm m x) with h4 | ⟨e, h4⟩
  swap
  · exact Or.inl ⟨e, by
      unfold mcaForward
      simp only [h1, h2, h3, h4, exBind_ok, exBind_error]⟩
  rcases chk_cases (chkToKv m media) with h5 | ⟨e, h5⟩
  swap
  · exact Or.inl ⟨e, by
      unfold mcaForward
      simp only [h1, h2, h3, h4, h5, exBind_ok, exBind_error]⟩
  rcases chk_cases (chkEinsumBatch x media) with h6 | ⟨e, h6⟩
  swap
  · exact Or.inl ⟨e, by
      unfold mcaForward
      simp only [h1, h2, h3, h4, h5, h6, exBind_ok, exBind_error]⟩
  rcases chk_cases (chkMaskFill x media media_mask) with h7 | ⟨e, h7⟩
  swap
  · exact Or.inl ⟨e, by
      unfold mcaForward
      simp only [h1, h2, h3, h4, h5, h6, h7, exBind_ok, exBind_error]⟩
  exact Or.inr ⟨h1, h2, h3, h4, h5, h6, h7⟩

theorem mca_flagTrue_error (P : LibPrims) (m : MaskedCrossAttention)
    (x : Tens3) (media : Tens4) (media_mask : BMask3)
    (media_locations : Option BMask2) (use_cached_media : Bool)
    (hflag : m.only_attend_immediate_media = true) :
    ∃ e, mcaForward P m x media media_mask media_locations use_cached_media =
      .error e := by
  rcases mca_run P m x media media_mask media_locations use_cached_media with
    h | ⟨h1, h2, h3, h4, h5, h6, h7⟩
  · exact h
  · refine ⟨.assertionError "self.only_attend_immediate_media is False", ?_⟩
    unfold mcaForward
    simp only [h1, h2, h3, h4, h5, h6, h7, exBind_ok, chkFlag, hflag, if_true,
      exBind_error]

theorem mca_error_of_empty_row (P : LibPrims) (m : MaskedCrossAttention)
    (x : Tens3) (media : Tens4) (media_mask : BMask3) (lsAll : BMask2)
    (use_cached_media : Bool) (b : Nat) (row : List Bool)
    (hb : b < media.length) (hrow : lsAll[b]? = some row)
    (hnz : nonzeroLocs row = []) :
    ∃ e, mcaForward P m x media media_mask (some lsAll) use_cached_media =
      .error e := by
  rcases mca_run P m x media media_mask (some lsAll) use_cached_media with
    h | ⟨h1, h2, h3, h4, h5, h6, h7⟩
  · exact h
  · rcases chk_cases (chkFlag m) with h8 | ⟨e, h8⟩
    swap
    · exact ⟨e, by
        unfold mcaForward
        simp only [h1, h2, h3, h4, h5, h6, h7, h8, exBind_ok, exBind_error]⟩
    obtain ⟨e2, hmask⟩ := few_shot_mask_error_of_empty_row (shape1 x)
      (shape1 media) m.max_window_per_audio
      m.only_attend_immediate_media hb hrow hnz
    refine ⟨e2, ?_⟩
    unfold mcaForward
    simp only [h1, h2, h3, h4, h5, h6, h7, h8, exBind_ok, maskBuilt, hmask,
      exMap_error, exBind_error]

theorem mca_ok (P : LibPrims) (m : MaskedCrossAttention) (x : Tens3)
    (media : Tens4) (media_mask : BMask3) (lsAll : BMask2)
    (use_cached_media : Bool)
    (hflag : m.only_attend_immediate_media = false)
    (hW : m.max_window_per_audio ≠ 0)
    (hmod : shape1 media % m.max_window_per_audio = 0)
    (hN : shape2 media = 1)
    (hml : shape1 lsAll = shape1 x)
    (hdim : ∀ xb ∈ x, ∀ r ∈ xb, r.length = m.dim)
    (haudio : ∀ mb ∈ media, ∀ nb ∈ mb, ∀ r ∈ nb, r.length = m.dim_audio)
    (hbatch : x.length = media.length)
    (hmmB : media_mask.length = media.length)
    (hmmW : shape1 (media_mask.map List.flatten) =
      shape1 media * shape2 media)
    (hL : 0 < shape1 media)
    (hrows : ∀ b < media.length, ∃ row, lsAll[b]? = some row ∧
      nonzeroLocs row ≠ []) :
    ∃ out, mcaForward P m x media media_mask (some lsAll) use_cached_media =
      .ok out := by
  have h1 : chkLocShape (some lsAll) x use_cached_media = .ok () := by
    unfold chkLocShape
    cases use_cached_media <;> simp [hml]
  have h2 : chkExtraDim media = .ok () := by simp [chkExtraDim, hN]
  have h3 : chkDivisible m media = .ok () := by simp [chkDivisible, hW, hmod]
  have h4 : chkNorm m x = .ok () := by
    have hall : x.all (fun xb => xb.all (fun r => r.length == m.dim)) = true := by
      rw [List.all_eq_true]
      intro xb hxb
      rw [List.all_eq_true]
      intro r hr
      simpa using hdim xb hxb r hr
    simp [chkNorm, hall]
  have h5 : chkToKv m media = .ok () := by
    have hall : media.all (fun mb => mb.all (fun nb =>
        nb.all (fun r => r.length == m.dim_audio))) = true := by
      rw [List.all_eq_true]
      intro mb hmb
      rw [List.all_eq_true]
      intro nb hnb
      rw [List.all_eq_true]
      intro r hr
      simpa using haudio mb hmb nb hnb r hr
    simp [chkToKv, hall]
  have h6 : chkEinsumBatch x media = .ok () := by
    simp [chkEinsumBatch, hbatch]
  have h7 : chkMaskFill x media media_mask = .ok () := by
    simp [chkMaskFill, hbatch, hmmB, hmmW]
  have h8 : chkFlag m = .ok () := by simp [chkFlag, hflag]
  have hAmax : chkAmax media = .ok () := by
    have hne0 : shape1 media * shape2 media ≠ 0 := by
      rw [hN]
      omega
    simp [chkAmax, hne0]
  obtain ⟨M, hM⟩ := few_shot_mask_ok (shape1 x) (shape1 media)
    m.max_window_per_audio m.only_attend_immediate_media hrows
  rw [hflag] at hM
  unfold mcaForward
  simp only [h1, h2, h3, h4, h5, h6, h7, h8, exBind_ok, maskBuilt, hM,
    exMap_ok, hAmax, hflag, Bool.and_false, Bool.false_eq_true, if_false]
  exact ⟨_, rfl⟩

theorem seg_count_none {locs : List Nat}
    (hs : List.Pairwise (· < ·) locs) {T t : Nat}
    (h : SegContains locs T none t) : markersUpTo locs t = 0 := by
  have hlt : t < locs.getD 0 0 := h
  by_contra hc
  have hc1 : 1 ≤ markersUpTo locs t := by omega
  have hn : 0 < locs.length := by
    by_contra hn0
    have hnil : locs = [] := List.length_eq_zero.mp (by omega)
    rw [hnil] at hlt
    simp at hlt
  have := (sorted_count_iff hs t 0 (locs.getD 0 0)
    (getD_some_of_lt locs 0 hn)).mpr (by omega)
  omega

theorem seg_count_some {locs : List Nat}
    (hs : List.Pairwise (· < ·) locs) {T t i : Nat}
    (h : SegContains locs T (some i) t) : markersUpTo locs t = i + 1 := by
  obtain ⟨hi, hle, hrest⟩ := h
  have h1 : i < markersUpTo locs t :=
    (sorted_count_iff hs t i (locs.getD i 0) (getD_some_of_lt locs i hi)).mp hle
  have hcle := markersUpTo_le_length locs t
  by_cases hi1 : i + 1 < locs.length
  · rw [if_pos hi1] at hrest
    have h2 : ¬ (i + 1 < markersUpTo locs t) := by
      intro hcon
      have := (sorted_count_iff hs t (i + 1) (locs.getD (i + 1) 0)
        (getD_some_of_lt locs (i + 1) hi1)).mpr hcon
      omega
    omega
  · omega

theorem segContains_exists_unique {locs : List Nat}
    (hs : List.Pairwise (· < ·) locs) (hne : locs ≠ []) {T t : Nat}
    (ht : t < T) : ∃! so : Option Nat, SegContains locs T so t := by
  have hn : 0 < locs.length := by
    cases locs with
    | nil => exact absurd rfl hne
    | cons a tl => simp
  have hiff0 := sorted_count_iff hs t 0 (locs.getD 0 0) (getD_some_of_lt locs 0 hn)
  have hcle := markersUpTo_le_length locs t
  by_cases hc0 : markersUpTo locs t = 0
  · refine ⟨none, ?_, ?_⟩
    · show t < locs.getD 0 0
      by_contra hcon
      have := hiff0.mp (by omega)
      omega
    · intro y hy
      cases y with
      | none => rfl
      | some i =>
        obtain ⟨hi, hle, _⟩ := hy
        have := (sorted_count_iff hs t i (locs.getD i 0)
          (getD_some_of_lt locs i hi)).mp hle
        omega
  · have hc1 : 1 ≤ markersUpTo locs t := by omega
    refine ⟨some (markersUpTo locs t - 1), ⟨by omega, ?_, ?_⟩, ?_⟩
    · exact (sorted_count_iff hs t (markersUpTo locs t - 1) _
        (getD_some_of_lt locs _ (by omega))).mpr (by omega)
    · by_cases hin : markersUpTo locs t - 1 + 1 < locs.length
      · rw [if_pos hin]
        by_contra hcon
        have := (sorted_count_iff hs t (markersUpTo locs t - 1 + 1) _
          (getD_some_of_lt locs _ hin)).mp (by omega)
        omega
      · rw [if_neg hin]
        exact ht
    · intro y hy
      cases y with
      | none =>
        have hy2 : t < locs.getD 0 0 := hy
        have := hiff0.mpr (by omega)
        omega
      | some j =>
        obtain ⟨hj, hjle, hjrest⟩ := hy
        have hjc : j < markersUpTo locs t :=
          (sorted_count_iff hs t j _ (getD_some_of_lt locs j hj)).mp hjle
        by_cases hjn : j + 1 < locs.length
        · rw [if_pos hjn] at hjrest
          have hjcu : ¬ (j + 1 < markersUpTo locs t) := by
            intro hcon
            have := (sorted_count_iff hs t (j + 1) _
              (getD_some_of_lt locs _ hjn)).mpr hcon
            omega
          have hj2 : j = markersUpTo locs t - 1 := by omega
          rw [hj2]
        · have hj2 : j = markersUpTo locs t - 1 := by omega
          rw [hj2]

theorem getElem?_getD_of_lt {α : Type} (l : List α) (d : α) (i : Nat)
    (hi : i < l.length) : l[i]? = some (l.getD i d) := by
  rw [List.getElem?_eq_getElem hi, List.getD_eq_getElem _ _ hi]

theorem getD_mapIdxF {α β : Type} (f : Nat → α → β) (l : List α) {i : Nat}
    (hi : i < l.length) (d : α) (d2 : β) :
    (mapIdxF f 0 l).getD i d2 = f i (l.getD i d) := by
  rw [List.getD_eq_getElem?_getD, getElem?_mapIdxF, List.getElem?_eq_getElem hi]
  simp [List.getD_eq_getElem?_getD, List.getElem?_eq_getElem hi]

theorem getD_map2 {α β : Type} (f : α → β) (l : List α) {i : Nat}
    (hi : i < l.length) (d : α) (d2 : β) :
    (l.map f).getD i d2 = f (l.getD i d) := by
  rw [List.getD_eq_getElem?_getD, List.getElem?_map, List.getElem?_eq_getElem hi]
  simp [List.getD_eq_getElem?_getD, List.getElem?_eq_getElem hi]

theorem getS4_fillByMediaMask (mmF : List (List Bool)) (sim : Tens4)
    (b h t s : Nat) (hb : b < sim.length)
    (hh : h < (sim.getD b []).length)
    (ht : t < ((sim.getD b []).getD h []).length)
    (hs : s < (((sim.getD b []).getD h []).getD t []).length) :
    getS4 (fillByMediaMask mmF sim) b h t s =
      (if (((mmF[b]?).getD [])[s]?).getD false then getS4 sim b h t s
       else -finfoMax) := by
  unfold getS4 fillByMediaMask
  rw [getD_mapIdxF _ sim hb [] []]
  rw [getD_map2 _ _ hh [] []]
  rw [getD_map2 _ _ ht [] []]
  rw [getD_mapIdxF _ _ hs 0 0]

theorem getS4_fillByFewShot (fsm : BMask3) (sim : Tens4)
    (b h t s : Nat) (hb : b < sim.length)
    (hh : h < (sim.getD b []).length)
    (ht : t < ((sim.getD b []).getD h []).length)
    (hs : s < (((sim.getD b []).getD h []).getD t []).length) :
    getS4 (fillByFewShot fsm sim) b h t s =
      (if maskAt ((fsm[b]?).getD []) t s then getS4 sim b h t s
       else -finfoMax) := by
  unfold getS4 fillByFewShot
  rw [getD_mapIdxF _ sim hb [] []]
  rw [getD_map2 _ _ hh [] []]
  rw [getD_mapIdxF _ _ ht [] []]
  rw [getD_mapIdxF _ _ hs 0 0]

theorem fillByMediaMask_length (mmF : List (List Bool)) (sim : Tens4) :
    (fillByMediaMask mmF sim).length = sim.length := by
  unfold fillByMediaMask
  exact length_mapIdxF _ _ _

theorem fillByMediaMask_getD (mmF : List (List Bool)) (sim : Tens4) {b : Nat}
    (hb : b < sim.length) :
    (fillByMediaMask mmF sim).getD b [] =
      (sim.getD b []).map (fun mat => mat.map (fun row =>
        mapIdxF (fun s v =>
          if (((mmF[b]?).getD [])[s]?).getD false then v else -finfoMax)
          0 row)) := by
  unfold fillByMediaMask
  rw [getD_mapIdxF _ sim hb [] []]

/-- C1: with only_attend_immediate_media False, for every batch item whose
media_locations row contains at least one marker and every text position
t < T_txt, the built attendance mask permits t to attend exactly the audio
slots s with s < (k + 1) * max_window_per_audio, where k is the index of the
last marker position at or before t (k = 0 when t precedes the first
marker); every other audio slot is disallowed. -/
theorem C1_window_prefix (T L W B b t s : Nat) (lsAll : BMask2) (M : BMask3)
    (row : List Bool)
    (hM : few_shot_mask T L W false lsAll B = .ok M)
    (hb : b < B) (hrow : lsAll[b]? = some row)
    (hne : nonzeroLocs row ≠ [])
    (ht : t < T) (hs : s < L) :
    (maskAt ((M[b]?).getD []) t s = true ↔
      s < (lastMarkerIdx row t + 1) * W) := by
  obtain ⟨mb, hitem, hMb⟩ := few_shot_mask_nth hM hb hrow
  rw [hMb]
  simp only [Option.getD_some]
  have hspec := fewShotMaskItem_spec hitem ht hs
  simpa [lastMarkerIdx] using hspec

theorem C1_window_prefix_witness :
    (maskAt ((([[[true, false], [true, false]]] : BMask3)[0]?).getD []) 1 1 = true ↔
      1 < (lastMarkerIdx [true, false] 1 + 1) * 1) :=
  C1_window_prefix 2 2 1 1 0 1 1 [[true, false]]
    [[[true, false], [true, false]]] [true, false] (by rfl) (by decide)
    (by rfl) (by decide) (by decide) (by decide)

/-- C6: the location mask construction is a pure function of the text length,
the media shape, the marker locations, the window size and the flag: two
forward passes whose inputs agree on those data build identical masks,
whatever the numeric contents of x, media, or the module parameters. -/
theorem C6_mask_pure (m1 m2 : MaskedCrossAttention) (x1 x2 : Tens3)
    (media1 media2 : Tens4) (ls : BMask2)
    (hW : m1.max_window_per_audio = m2.max_window_per_audio)
    (hf : m1.only_attend_immediate_media = m2.only_attend_immediate_media)
    (hT : shape1 x1 = shape1 x2) (hL : shape1 media1 = shape1 media2)
    (hB : media1.length = media2.length) :
    maskBuilt m1 x1 media1 ls = maskBuilt m2 x2 media2 ls := by
  unfold maskBuilt
  rw [hW, hf, hT, hL, hB]

theorem C6_mask_pure_witness :
    maskBuilt mcaF [[[0]]] [[[[0]]]] [[true]] =
      maskBuilt mcaF2 [[[5]]] [[[[7]]]] [[true]] :=
  C6_mask_pure mcaF mcaF2 [[[0]]] [[[5]]] [[[[0]]]] [[[[7]]]] [[true]]
    (by rfl) (by rfl) (by rfl) (by rfl) (by rfl)

/-- C9: if the media_locations row of some batch item contains no marker at
all, MaskedCrossAttention.forward raises an exception (the empty marker list
is indexed at position 0) rather than producing a mask for that item. -/
theorem C9_no_marker_raises (P : LibPrims) (m : MaskedCrossAttention)
    (x : Tens3) (media : Tens4) (media_mask : BMask3) (lsAll : BMask2)
    (use_cached_media : Bool) (b : Nat) (row : List Bool)
    (hb : b < media.length) (hrow : lsAll[b]? = some row)
    (hnz : nonzeroLocs row = []) :
    ∃ e, mcaForward P m x media media_mask (some lsAll) use_cached_media =
      .error e :=
  mca_error_of_empty_row P m x media media_mask lsAll use_cached_media b row
    hb hrow hnz

theorem C9_no_marker_raises_witness :
    ∃ e, mcaForward primsId mcaF [[[0]]] [[[[0]]]] [[[true]]] (some [[false]])
      false = .error e :=
  C9_no_marker_raises primsId mcaF [[[0]]] [[[[0]]]] [[[true]]] [[false]]
    false 0 [false] (by decide) (by rfl) (by rfl)

/-- C3: the media-location mask is combined with the audio padding mask by
logical AND before the softmax: the similarity score at (batch b, head h,
text t, audio slot s) is left intact iff both the rearranged padding mask and
the location mask allow (t, s), and every disallowed score is set to the
negated largest finite value of the score dtype before normalization. -/
theorem C3_and_combination (mmF : List (List Bool)) (fsm : BMask3)
    (sim : Tens4) (b h t s : Nat) (hb : b < sim.length)
    (hh : h < (sim.getD b []).length)
    (ht : t < ((sim.getD b []).getD h []).length)
    (hs : s < (((sim.getD b []).getD h []).getD t []).length) :
    getS4 (fillByFewShot fsm (fillByMediaMask mmF sim)) b h t s =
      (if ((((mmF[b]?).getD [])[s]?).getD false &&
           maskAt ((fsm[b]?).getD []) t s) then getS4 sim b h t s
       else -finfoMax) := by
  have hgd := fillByMediaMask_getD mmF sim hb
  have hb2 : b < (fillByMediaMask mmF sim).length := by
    rw [fillByMediaMask_length]
    exact hb
  have hh2 : h < ((fillByMediaMask mmF sim).getD b []).length := by
    rw [hgd, List.length_map]
    exact hh
  have hgd2 : ((fillByMediaMask mmF sim).getD b []).getD h [] =
      ((sim.getD b []).getD h []).map (fun row =>
        mapIdxF (fun s v =>
          if (((mmF[b]?).getD [])[s]?).getD false then v else -finfoMax)
          0 row) := by
    rw [hgd]
    exact getD_map2 _ _ hh [] []
  have ht2 : t < (((fillByMediaMask mmF sim).getD b []).getD h []).length := by
    rw [hgd2, List.length_map]
    exact ht
  have hgd3 : (((fillByMediaMask mmF sim).getD b []).getD h []).getD t [] =
      mapIdxF (fun s v =>
        if (((mmF[b]?).getD [])[s]?).getD false then v else -finfoMax) 0
        (((sim.getD b []).getD h []).getD t []) := by
    rw [hgd2]
    exact getD_map2 _ _ ht [] []
  have hs2 : s <
      ((((fillByMediaMask mmF sim).getD b []).getD h []).getD t []).length := by
    rw [hgd3, length_mapIdxF]
    exact hs
  rw [getS4_fillByFewShot fsm _ b h t s hb2 hh2 ht2 hs2]
  rw [getS4_fillByMediaMask mmF sim b h t s hb hh ht hs]
  by_cases h1 : (((mmF[b]?).getD [])[s]?).getD false = true <;>
    by_cases h2 : maskAt ((fsm[b]?).getD []) t s = true <;>
      simp [h1, h2]

theorem C3_and_combination_witness :
    getS4 (fillByFewShot [[[false]]] (fillByMediaMask [[true]] [[[[3]]]]))
      0 0 0 0 =
      (if (((([[true]] : List (List Bool))[0]?).getD [])[0]?).getD false &&
           maskAt ((([[[false]]] : BMask3)[0]?).getD []) 0 0
       then getS4 [[[[3]]]] 0 0 0 0 else -finfoMax) :=
  C3_and_combination [[true]] [[[false]]] [[[[3]]]] 0 0 0 0 (by decide)
    (by decide) (by decide) (by decide)

/-- C2: for a batch item with at least one marker, the marker positions
partition the text sequence into contiguous non-overlapping segments — every
text position lies in exactly one segment (the pre-segment before the first
marker, or segment i from marker i up to just before marker i + 1, the last
segment ending at the sequence end) — and the permitted windows of a text
position are assigned by exactly the segment containing it: two positions in
the same segment have identical mask rows. -/
theorem C2_segment_partition (T L W B b : Nat) (lsAll : BMask2) (M : BMask3)
    (row : List Bool)
    (hM : few_shot_mask T L W false lsAll B = .ok M)
    (hb : b < B) (hrow : lsAll[b]? = some row)
    (hne : nonzeroLocs row ≠ []) :
    ((∀ t < T, ∃! so : Option Nat, SegContains (nonzeroLocs row) T so t) ∧
     (∀ t t2 : Nat, t < T → t2 < T → ∀ so : Option Nat,
        SegContains (nonzeroLocs row) T so t →
        SegContains (nonzeroLocs row) T so t2 →
        ∀ s < L, maskAt ((M[b]?).getD []) t s =
          maskAt ((M[b]?).getD []) t2 s)) := by
  have hsort := nonzeroLocs_sorted row
  constructor
  · intro t ht
    exact segContains_exists_unique hsort hne ht
  · intro t t2 ht ht2 so hso hso2 s hs
    obtain ⟨mb, hitem, hMb⟩ := few_shot_mask_nth hM hb hrow
    rw [hMb]
    simp only [Option.getD_some]
    have hceq : markersUpTo (nonzeroLocs row) t =
        markersUpTo (nonzeroLocs row) t2 := by
      cases so with
      | none => rw [seg_count_none hsort hso, seg_count_none hsort hso2]
      | some i => rw [seg_count_some hsort hso, seg_count_some hsort hso2]
    have h1 := fewShotMaskItem_spec hitem ht hs
    have h2 := fewShotMaskItem_spec hitem ht2 hs
    rw [hceq] at h1
    cases hA : maskAt mb t s <;> cases hB : maskAt mb t2 s
    · rfl
    · exact absurd (h1.mpr (h2.mp hB)) (by simp [hA])
    · exact absurd (h2.mpr (h1.mp hA)) (by simp [hB])
    · rfl

theorem C2_segment_partition_witness :
    ((∀ t < 2, ∃! so : Option Nat,
        SegContains (nonzeroLocs [true, false]) 2 so t) ∧
     (∀ t t2 : Nat, t < 2 → t2 < 2 → ∀ so : Option Nat,
        SegContains (nonzeroLocs [true, false]) 2 so t →
        SegContains (nonzeroLocs [true, false]) 2 so t2 →
        ∀ s < 2,
          maskAt ((([[[true, false], [true, false]]] : BMask3)[0]?).getD []) t s =
          maskAt ((([[[true, false], [true, false]]] : BMask3)[0]?).getD []) t2 s)) :=
  C2_segment_partition 2 2 1 1 0 [[true, false]]
    [[[true, false], [true, false]]] [true, false] (by rfl) (by decide)
    (by rfl) (by decide)

/-- C4 counterexample: an input whose shapes satisfy every entry assertion
(media_locations length matches the text length, media has the extra unit
dimension, L is a multiple of the window size) on which forward still raises:
the single batch row has no marker, so the mask construction raises
IndexError. -/
theorem C4_valid_shapes_still_raise :
    mcaForward primsId mcaF [[[0]]] [[[[0]]]] [[[true]]] (some [[false]])
      false =
      .error (.indexError "index 0 is out of bounds for dimension 0 with size 0") := by
  rfl

/-- C4 (amended): forward raises no exception on inputs whose shapes satisfy
the entry assertions and the tensor-library shape requirements (x's feature
dimension equals the module's dim, media's feature dimension equals
dim_audio, matching batch sizes, a media_mask of matching batch and L * N
width, and a nonempty slot dimension), provided additionally
only_attend_immediate_media is False (the code asserts this
unconditionally), the window size is nonzero (L % 0 itself raises), and
every batch row of media_locations exists and contains at least one marker
(a marker-free row raises IndexError). -/
theorem C4_no_exception_amended (P : LibPrims) (m : MaskedCrossAttention)
    (x : Tens3) (media : Tens4) (media_mask : BMask3) (lsAll : BMask2)
    (use_cached_media : Bool)
    (hflag : m.only_attend_immediate_media = false)
    (hW : m.max_window_per_audio ≠ 0)
    (hmod : shape1 media % m.max_window_per_audio = 0)
    (hN : shape2 media = 1)
    (hml : shape1 lsAll = shape1 x)
    (hdim : ∀ xb ∈ x, ∀ r ∈ xb, r.length = m.dim)
    (haudio : ∀ mb ∈ media, ∀ nb ∈ mb, ∀ r ∈ nb, r.length = m.dim_audio)
    (hbatch : x.length = media.length)
    (hmmB : media_mask.length = media.length)
    (hmmW : shape1 (media_mask.map List.flatten) =
      shape1 media * shape2 media)
    (hL : 0 < shape1 media)
    (hrows : ∀ b < media.length, ∃ row, lsAll[b]? = some row ∧
      nonzeroLocs row ≠ []) :
    ∃ out, mcaForward P m x media media_mask (some lsAll) use_cached_media =
      .ok out :=
  mca_ok P m x media media_mask lsAll use_cached_media hflag hW hmod hN hml
    hdim haudio hbatch hmmB hmmW hL hrows

theorem C4_no_exception_amended_witness :
    ∃ out, mcaForward primsId mcaF [[[0]]] [[[[0]]]] [[[true]]]
      (some [[true]]) false = .ok out :=
  C4_no_exception_amended primsId mcaF [[[0]]] [[[[0]]]] [[[true]]] [[true]]
    false (by rfl) (by decide) (by decide) (by decide) (by decide)
    (by decide) (by decide) (by rfl) (by rfl) (by decide) (by decide)
    (by
      intro b hb
      have hb1 : b < 1 := by simpa using hb
      have hb0 : b = 0 := by omega
      subst hb0
      exact ⟨[true], rfl, by decide⟩)

/-- C5 counterexample: with only_attend_immediate_media True, forward never
produces attention weights at all.  Here the text has length 2 and the only
marker sits at position 1, so position 0 has no preceding marker and the
claim predicts its attention weights are zeroed after the softmax; instead
forward raises the unconditional assertion before the softmax. -/
theorem C5_flag_true_never_zeroes :
    mcaForward primsId mcaT [[[0], [0]]] [[[[0]]]] [[[true]]]
      (some [[false, true]]) false =
      .error (.assertionError "self.only_attend_immediate_media is False") := by
  rfl

/-- C5 (amended): with only_attend_immediate_media False, text positions
with no preceding marker (strictly before the first marker) are permitted to
attend exactly the first window of audio slots (slots s with s < W); the
alternative configuration only_attend_immediate_media True is unreachable:
forward raises an exception on every input, so the post-softmax zeroing never
executes. -/
theorem C5_first_window_amended :
    ((∀ (T L W B b t s : Nat) (lsAll : BMask2) (M : BMask3) (row : List Bool),
        few_shot_mask T L W false lsAll B = .ok M →
        b < B → lsAll[b]? = some row →
        nonzeroLocs row ≠ [] →
        (∀ l ∈ nonzeroLocs row, t < l) →
        t < T → s < L →
        (maskAt ((M[b]?).getD []) t s = true ↔ s < W)) ∧
     (∀ (P : LibPrims) (m : MaskedCrossAttention) (x : Tens3) (media : Tens4)
        (media_mask : BMask3) (media_locations : Option BMask2)
        (use_cached_media : Bool),
        m.only_attend_immediate_media = true →
        ∃ e, mcaForward P m x media media_mask media_locations
          use_cached_media = .error e)) := by
  constructor
  · intro T L W B b t s lsAll M row hM hb hrow hne hfirst ht hs
    obtain ⟨mb, hitem, hMb⟩ := few_shot_mask_nth hM hb hrow
    rw [hMb]
    simp only [Option.getD_some]
    have hc0 : markersUpTo (nonzeroLocs row) t = 0 := by
      have : (nonzeroLocs row).filter (fun l => decide (l ≤ t)) = [] :=
        List.filter_eq_nil_iff.mpr (by
          intro l hl
          simpa using Nat.not_le_of_lt (hfirst l hl))
      simp [markersUpTo, this]
    have hspec := fewShotMaskItem_spec hitem ht hs
    rw [hc0] at hspec
    simpa using hspec
  · intro P m x media media_mask media_locations use_cached_media hflag
    exact mca_flagTrue_error P m x media media_mask media_locations
      use_cached_media hflag

theorem C5_first_window_amended_witness :
    ((maskAt ((([[[true, false], [true, false]]] : BMask3)[0]?).getD []) 0 1 =
        true ↔ 1 < 1) ∧
     (∃ e, mcaForward primsId mcaT [[[0]]] [[[[0]]]] [[[true]]]
        (some [[true]]) false = .error e)) :=
  ⟨C5_first_window_amended.1 2 2 1 1 0 0 1 [[false, true]]
      [[[true, false], [true, false]]] [false, true] (by rfl) (by decide)
      (by rfl) (by decide) (by decide) (by decide) (by decide),
   C5_first_window_amended.2 primsId mcaT [[[0]]] [[[[0]]]] [[[true]]]
      (some [[true]]) false (by rfl)⟩

/-- C7: GatedCrossAttentionBlock.forward adds gated sublayer outputs back to
the residual stream: whenever the inner attention returns a, the block
returns ff(y) * tanh(ff_gate) + y where y = a * tanh(attn_gate) + x. -/
theorem C7_gated_residual (P : LibPrims) (blk : GatedCrossAttentionBlock)
    (x : Tens3) (media : Tens4) (media_mask : BMask3)
    (media_locations : Option BMask2) (use_cached_media : Bool) (a : Tens3)
    (ha : mcaForward P blk.attn x media media_mask media_locations
      use_cached_media = .ok a) :
    gxbForward P blk x media media_mask media_locations use_cached_media =
      .ok (addT
        (scalarMulT (P.tanhQ blk.ff_gate)
          (feedForwardT P blk (addT (scalarMulT (P.tanhQ blk.attn_gate) a) x)))
        (addT (scalarMulT (P.tanhQ blk.attn_gate) a) x)) := by
  unfold gxbForward
  rw [ha, exBind_ok]

section
attribute [local semireducible] Rat.add Rat.mul Rat.inv Rat.sub

theorem C7_gated_residual_witness :
    gxbForward primsId gxbC [[[0]]] [[[[0]]]] [[[true]]] (some [[true]])
      false =
      .ok (addT
        (scalarMulT (primsId.tanhQ gxbC.ff_gate)
          (feedForwardT primsId gxbC
            (addT (scalarMulT (primsId.tanhQ gxbC.attn_gate) [[[0]]]) [[[0]]])))
        (addT (scalarMulT (primsId.tanhQ gxbC.attn_gate) [[[0]]]) [[[0]]])) :=
  C7_gated_residual primsId gxbC [[[0]]] [[[[0]]]] [[[true]]] (some [[true]])
    false [[[0]]] (by decide)

end

/-- C8 counterexample: with the constructor-default flag True, calling
forward with media_locations = None and use_cached_media = False raises an
AttributeError (None has no shape attribute), not an AssertionError. -/
theorem C8_none_locations_attribute_error :
    (mcaForward primsId mcaT [[[0]]] [[[[0]]]] [[[true]]] none false =
      .error (.attributeError "NoneType object has no attribute shape")) ∧
    (PyErr.attributeError
      "NoneType object has no attribute shape").isAssertionError = false :=
  ⟨rfl, rfl⟩

/-- C8 (amended): with only_attend_immediate_media True (the constructor
default), forward raises an exception on every input; on every input where
media_locations is provided or use_cached_media is true and the window size
is nonzero, the exception is an AssertionError (an earlier shape assertion or
the unconditional flag assertion at line 276). -/
theorem C8_flag_default_raises_amended :
    ((∀ (P : LibPrims) (m : MaskedCrossAttention) (x : Tens3) (media : Tens4)
        (media_mask : BMask3) (media_locations : Option BMask2)
        (use_cached_media : Bool),
        m.only_attend_immediate_media = true →
        ∃ e, mcaForward P m x media media_mask media_locations
          use_cached_media = .error e) ∧
     (∀ (P : LibPrims) (m : MaskedCrossAttention) (x : Tens3) (media : Tens4)
        (media_mask : BMask3) (media_locations : Option BMask2)
        (use_cached_media : Bool),
        m.only_attend_immediate_media = true →
        (media_locations ≠ none ∨ use_cached_media = true) →
        m.max_window_per_audio ≠ 0 →
        (∀ xb ∈ x, ∀ r ∈ xb, r.length = m.dim) →
        (∀ mb ∈ media, ∀ nb ∈ mb, ∀ r ∈ nb, r.length = m.dim_audio) →
        (x.length = media.length ∨ x.length = 1 ∨ media.length = 1) →
        (media_mask.length = max x.length media.length ∨
          media_mask.length = 1) →
        (shape1 (media_mask.map List.flatten) =
            shape1 media * shape2 media ∨
          shape1 (media_mask.map List.flatten) = 1) →
        ∃ msg, mcaForward P m x media media_mask media_locations
          use_cached_media = .error (.assertionError msg))) := by
  constructor
  · intro P m x media mm locs cached hflag
    exact mca_flagTrue_error P m x media mm locs cached hflag
  · intro P m x media mm locs cached hflag hloc hW hdim haudio heb hmfB hmfW
    have h4 : chkNorm m x = .ok () := by
      have hall : x.all (fun xb => xb.all (fun r => r.length == m.dim)) =
          true := by
        rw [List.all_eq_true]
        intro xb hxb
        rw [List.all_eq_true]
        intro r hr
        simpa using hdim xb hxb r hr
      simp [chkNorm, hall]
    have h5 : chkToKv m media = .ok () := by
      have hall : media.all (fun mb => mb.all (fun nb =>
          nb.all (fun r => r.length == m.dim_audio))) = true := by
        rw [List.all_eq_true]
        intro mb hmb
        rw [List.all_eq_true]
        intro nb hnb
        rw [List.all_eq_true]
        intro r hr
        simpa using haudio mb hmb nb hnb r hr
      simp [chkToKv, hall]
    have h6 : chkEinsumBatch x media = .ok () := by
      unfold chkEinsumBatch
      rcases heb with h | h | h <;> simp [h]
    have h7 : chkMaskFill x media mm = .ok () := by
      unfold chkMaskFill
      rcases hmfB with hA | hA <;> rcases hmfW with hB | hB <;> simp [hA, hB]
    have hchk1 : (chkLocShape locs x cached = .ok ()) ∨
        ∃ s, chkLocShape locs x cached = .error (.assertionError s) := by
      unfold chkLocShape
      by_cases hc : cached = true
      · left
        simp [hc]
      · have hc2 : cached = false := by
          cases cached
          · rfl
          · exact absurd rfl hc
        cases locs with
        | none =>
          rcases hloc with h | h
          · exact absurd rfl h
          · exact absurd h hc
        | some ml =>
          by_cases hsh : shape1 ml = shape1 x
          · left
            simp [hc2, hsh]
          · right
            exact ⟨"media_location.shape does not match x.shape",
              by simp [hc2, hsh]⟩
    have hchk2 : (chkExtraDim media = .ok ()) ∨
        ∃ s, chkExtraDim media = .error (.assertionError s) := by
      unfold chkExtraDim
      by_cases hN : shape2 media = 1
      · left
        simp [hN]
      · right
        exact ⟨"media.shape 2 is the extra dim", by simp [hN]⟩
    have hchk3 : (chkDivisible m media = .ok ()) ∨
        ∃ s, chkDivisible m media = .error (.assertionError s) := by
      unfold chkDivisible
      by_cases hmod : shape1 media % m.max_window_per_audio = 0
      · left
        simp [hW, hmod]
      · right
        exact ⟨"L should be 4 or 8 times max_window_per_audio",
          by simp [hW, hmod]⟩
    rcases hchk1 with h1 | ⟨s1, h1⟩
    · rcases hchk2 with h2 | ⟨s2, h2⟩
      · rcases hchk3 with h3 | ⟨s3, h3⟩
        · refine ⟨"self.only_attend_immediate_media is False", ?_⟩
          unfold mcaForward
          simp only [h1, h2, h3, h4, h5, h6, h7, exBind_ok, chkFlag, hflag,
            if_true, exBind_error]
        · refine ⟨s3, ?_⟩
          unfold mcaForward
          simp only [h1, h2, h3, exBind_ok, exBind_error]
      · refine ⟨s2, ?_⟩
        unfold mcaForward
        simp only [h1, h2, exBind_ok, exBind_error]
    · refine ⟨s1, ?_⟩
      unfold mcaForward
      simp only [h1, exBind_error]

theorem C8_flag_default_raises_amended_witness :
    ∃ msg, mcaForward primsId mcaT [[[0]]] [[[[0]]]] [[[true]]]
      (some [[true]]) false = .error (.assertionError msg) :=
  C8_flag_default_raises_amended.2 primsId mcaT [[[0]]] [[[[0]]]] [[[true]]]
    (some [[true]]) false (by rfl) (Or.inl (by simp)) (by decide) (by decide)
    (by decide) (Or.inl (by rfl)) (Or.inl (by decide)) (Or.inl (by decide))

theorem addVec_zero : ∀ (u v : Vec), u.length = v.length →
    addVec (u.map (fun a => a * 0)) v = v := by
  intro u
  induction u with
  | nil =>
    intro v h
    cases v with
    | nil => rfl
    | cons b bs => simp at h
  | cons a as ih =>
    intro v h
    cases v with
    | nil => simp at h
    | cons b bs =>
      simp only [List.map_cons, addVec, List.zipWith_cons_cons]
      have hlen : as.length = bs.length := by simpa using h
      have htl := ih bs hlen
      simp only [addVec] at htl
      rw [htl]
      simp

theorem matAdd_zero : ∀ (p q : Mat), p.length = q.length →
    (∀ i < p.length, ((p[i]?).getD []).length = ((q[i]?).getD []).length) →
    List.zipWith addVec (p.map (fun r => r.map (fun a => a * 0))) q = q := by
  intro p
  induction p with
  | nil =>
    intro q h hr
    cases q with
    | nil => rfl
    | cons _ _ => simp at h
  | cons r rs ih =>
    intro q h hr
    cases q with
    | nil => simp at h
    | cons w ws =>
      simp only [List.map_cons, List.zipWith_cons_cons]
      have h0 := hr 0 (by simp)
      simp only [List.getElem?_cons_zero, Option.getD_some] at h0
      rw [addVec_zero r w h0]
      have htl : List.zipWith addVec (rs.map (fun r => r.map (fun a => a * 0)))
          ws = ws := by
        apply ih ws (by simpa using h)
        intro i hi
        have := hr (i + 1) (by simpa using Nat.succ_lt_succ hi)
        simpa using this
      rw [htl]

theorem addT_smulZero : ∀ (a b : Tens3), SameShape3 a b →
    addT (scalarMulT 0 a) b = b := by
  intro a
  induction a with
  | nil =>
    intro b h
    obtain ⟨h1, _⟩ := h
    cases b with
    | nil => rfl
    | cons _ _ => simp at h1
  | cons m ms ih =>
    intro b h
    obtain ⟨h1, h2⟩ := h
    cases b with
    | nil => simp at h1
    | cons w ws =>
      simp only [addT, scalarMulT, List.map_cons, List.zipWith_cons_cons]
      have h0 := h2 0 (by simp)
      simp only [List.getElem?_cons_zero, Option.getD_some] at h0
      have hhead : List.zipWith addVec
          (m.map (fun r => r.map (fun a => a * 0))) w = w := by
        apply matAdd_zero m w h0.1
        intro i hi
        exact h0.2 i hi
      have htail : addT (scalarMulT 0 ms) ws = ws := by
        apply ih
        refine ⟨by simpa using h1, ?_⟩
        intro i hi
        have := h2 (i + 1) (by simpa using Nat.succ_lt_succ hi)
        simpa using this
      simp only [addT, scalarMulT] at htail
      rw [hhead, htail]

theorem linNB_length (w : Mat) (v : Vec) : (linNB w v).length = w.length :=
  List.length_map _ _

theorem sameShape_feedForwardT (P : LibPrims) (blk : GatedCrossAttentionBlock)
    (x : Tens3)
    (hffdim : ∀ i < x.length, ∀ j < ((x[i]?).getD []).length,
      ((((x[i]?).getD [])[j]?).getD []).length = blk.ff_w2.length) :
    SameShape3 (feedForwardT P blk x) x := by
  refine ⟨by simp [feedForwardT], ?_⟩
  intro i hi
  have hix : i < x.length := by simpa [feedForwardT] using hi
  have hgd : ((feedForwardT P blk x)[i]?).getD [] =
      ((x[i]?).getD []).map (fun mb => ffVec P blk mb) := by
    unfold feedForwardT
    rw [List.getElem?_map, getElem?_getD_of_lt x [] i hix]
    simp only [Option.map_some', Option.getD_some]
  refine ⟨by rw [hgd, List.length_map], ?_⟩
  intro j hj
  have hjx : j < ((x[i]?).getD []).length := by
    rw [hgd, List.length_map] at hj
    exact hj
  have hrhs := hffdim i hix j hjx
  have h1 : (((((feedForwardT P blk x)[i]?).getD [])[j]?).getD []) =
      ffVec P blk ((((x[i]?).getD [])[j]?).getD []) := by
    rw [hgd, List.getElem?_map, getElem?_getD_of_lt _ [] j hjx]
    simp only [Option.map_some', Option.getD_some]
  rw [h1, hrhs]
  unfold ffVec
  rw [linNB_length]

section
attribute [local semireducible] Rat.add Rat.mul Rat.inv Rat.sub

end
